import Mathlib

/-!
Verification of the dinner-group membership and restaurant-aggregation logic
of the dinnernotonyourown repository.

The database state is embedded shallowly: each table is a list of rows, and
each Prisma query is translated to the corresponding pure list operation
(findFirst becomes List.find? over the row list in insertion order, create
appends a row with a fresh generated id, delete by id filters the row out,
update maps over the rows, count is the length of a filter).  Generated ids
(cuid values in the source) are modelled as natural numbers drawn from a
single counter DB.nextId.
-/

namespace DinnerApp

/-- Row of the Attendee table (schema: id, userId, dinnerGroupId). -/
structure Attendee where
  id : Nat
  userId : String
  dinnerGroupId : Nat
deriving DecidableEq, Repr

/-- Row of the DinnerGroup table (schema: id, restaurantId, notes). -/
structure DinnerGroup where
  id : Nat
  restaurantId : String
  notes : Option String
deriving DecidableEq, Repr

/-- The database state relevant to the membership operations: the Attendee
and DinnerGroup tables, plus the id generator for created rows. -/
structure DB where
  attendees : List Attendee
  groups : List DinnerGroup
  nextId : Nat
deriving DecidableEq, Repr

/-- The empty database. -/
def emptyDB : DB := { attendees := [], groups := [], nextId := 0 }

/-- The delete step of joinDinnerGroup (restaurants.server.ts lines 182-192):
findFirst the Attendee row of the user and, if present, delete it by id. -/
def removeUserAttendee (userId : String) (db : DB) : DB :=
  match db.attendees.find? (fun a => a.userId == userId) with
  | some existingAttendee =>
      { db with attendees := db.attendees.filter (fun a => !(a.id == existingAttendee.id)) }
  | none => db

/-- joinDinnerGroup (restaurants.server.ts lines 181-216): delete the
user's prior Attendee row if any, then create a new Attendee row binding
the user to the target dinner group.  Returns the created row and the new
database state. -/
def joinDinnerGroup (userId : String) (dinnerGroupId : Nat) (db : DB) : Attendee × DB :=
  let afterDelete := removeUserAttendee userId db
  let newAttendee : Attendee :=
    { id := afterDelete.nextId, userId := userId, dinnerGroupId := dinnerGroupId }
  (newAttendee,
    { afterDelete with
        attendees := afterDelete.attendees ++ [newAttendee],
        nextId := afterDelete.nextId + 1 })

/-- leaveDinnerGroup (restaurants.server.ts lines 218-230): findFirst the
user's Attendee row; if none, return null and leave the state unchanged,
otherwise delete the row by id and return it. -/
def leaveDinnerGroup (userId : String) (db : DB) : Option Attendee × DB :=
  match db.attendees.find? (fun a => a.userId == userId) with
  | none => (none, db)
  | some attendee =>
      (some attendee,
       { db with attendees := db.attendees.filter (fun a => !(a.id == attendee.id)) })

/-- The leave branch of the attendees route action (src/unnamed/part_004
lines 88-91): success is whether leaveDinnerGroup returned a row. -/
def attendeeLeaveAction (userId : String) (db : DB) : Bool × DB :=
  let result := leaveDinnerGroup userId db
  (result.1.isSome, result.2)

/-- getCurrentDinnerGroup (restaurants.server.ts lines 156-179): findFirst
the user's Attendee row, including its dinner group (looked up by id, as
the relation include does). -/
def getCurrentDinnerGroup (userId : String) (db : DB) : Option (Attendee × Option DinnerGroup) :=
  match db.attendees.find? (fun a => a.userId == userId) with
  | none => none
  | some attendee =>
      some (attendee, db.groups.find? (fun g => g.id == attendee.dinnerGroupId))

/-- getAttendeesCount (restaurants.server.ts lines 232-236): count of
Attendee rows whose dinnerGroupId matches. -/
def getAttendeesCount (dinnerGroupId : Nat) (db : DB) : Nat :=
  (db.attendees.filter (fun a => a.dinnerGroupId == dinnerGroupId)).length

/-- The group phase of the dashboard join-dinner action (dashboard.tsx
lines 91-109): findFirst the dinner group for the restaurant and use its id,
or create a new group (with empty notes) if none exists. -/
def lookupOrCreateGroup (restaurantId : String) (db : DB) : Nat × DB :=
  match db.groups.find? (fun g => g.restaurantId == restaurantId) with
  | some existingGroup => (existingGroup.id, db)
  | none =>
      let newGroup : DinnerGroup :=
        { id := db.nextId, restaurantId := restaurantId, notes := some "" }
      (newGroup.id, { db with groups := db.groups ++ [newGroup], nextId := db.nextId + 1 })

/-- The attendee phase of the dashboard join-dinner action (dashboard.tsx
lines 111-130): update the user's existing Attendee row to the group, or
create a new Attendee row if the user had none. -/
def upsertUserAttendee (userId : String) (dinnerGroupId : Nat) (db : DB) : DB :=
  match db.attendees.find? (fun a => a.userId == userId) with
  | some existingAttendee =>
      { db with
          attendees := db.attendees.map (fun a =>
            if a.id == existingAttendee.id then { a with dinnerGroupId := dinnerGroupId } else a) }
  | none =>
      { db with
          attendees := db.attendees ++
            [{ id := db.nextId, userId := userId, dinnerGroupId := dinnerGroupId }],
          nextId := db.nextId + 1 }

/-- The join-dinner branch of the dashboard action (dashboard.tsx
lines 85-133): the group phase followed by the attendee phase. -/
def dashboardJoinDinner (userId : String) (restaurantId : String) (db : DB) : DB :=
  let groupLookup := lookupOrCreateGroup restaurantId db
  upsertUserAttendee userId groupLookup.1 groupLookup.2

/-- The leave-dinner branch of the dashboard action (dashboard.tsx
lines 135-142): deleteMany of the user's Attendee rows. -/
def dashboardLeaveDinner (userId : String) (db : DB) : DB :=
  { db with attendees := db.attendees.filter (fun a => !(a.userId == userId)) }

/-- One membership operation, as exposed by the routes. -/
inductive Step : DB → DB → Prop where
  | join (userId : String) (dinnerGroupId : Nat) (db : DB) :
      Step db (joinDinnerGroup userId dinnerGroupId db).2
  | dashJoin (userId restaurantId : String) (db : DB) :
      Step db (dashboardJoinDinner userId restaurantId db)
  | leave (userId : String) (db : DB) :
      Step db (leaveDinnerGroup userId db).2
  | dashLeave (userId : String) (db : DB) :
      Step db (dashboardLeaveDinner userId db)

/-- States reachable from the empty database by membership operations. -/
inductive Reachable : DB → Prop where
  | init : Reachable emptyDB
  | step {db db' : DB} : Reachable db → Step db db' → Reachable db'

/-- The membership invariant: a given user has at most one Attendee row,
stated as pairwise distinctness of the userId column. -/
def AtMostOne (db : DB) : Prop :=
  db.attendees.Pairwise (fun a b => a.userId ≠ b.userId)

instance (db : DB) : Decidable (AtMostOne db) :=
  inferInstanceAs (Decidable (db.attendees.Pairwise _))

/-- Coordinates carried by a place geometry. -/
structure PlaceLocation where
  lat : Rat
  lng : Rat
deriving DecidableEq, Repr

/-- Geometry object of a place; the location may itself be absent, which
the loader checks for defensively. -/
structure PlaceGeometry where
  location : Option PlaceLocation
deriving DecidableEq, Repr

/-- A place as returned by the external place-search collaborator
(shape of googlePlacesRestaurantSchema, with every field the loader treats
as optional made optional).  Photos are represented by their photo
reference strings. -/
structure Place where
  place_id : Option String
  name : Option String
  vicinity : Option String
  types : List String
  price_level : Option Nat
  rating : Option Rat
  geometry : Option PlaceGeometry
  photos : List String
  website : Option String
  url : Option String
deriving DecidableEq, Repr

/-- The geographic location of a place, when both the geometry object and
its location are present (the check at restaurants.tsx lines 73-76). -/
def Place.geoLocation (p : Place) : Option PlaceLocation :=
  match p.geometry with
  | none => none
  | some g => g.location

/-- getPhotoUrl (src/unnamed/part_002 lines 12-18): falls back to a
placeholder when the photo reference is empty/absent.  The api key is
elided from the produced url. -/
def getPhotoUrl (photoReference : String) (maxWidth : Nat) : String :=
  if photoReference = "" then
    "https://placehold.co/400x300?text=Restaurant"
  else
    "https://maps.googleapis.com/maps/api/place/photo?maxwidth=" ++ toString maxWidth
      ++ "&photoreference=" ++ photoReference ++ "&key=***"

/-- A restaurant card produced by the aggregation loader
(restaurants.tsx lines 90-104). -/
structure RestaurantCard where
  id : String
  name : String
  address : String
  cuisineType : String
  priceLevel : Nat
  rating : Rat
  lat : Rat
  lng : Rat
  photoUrl : String
  mapsUrl : Option String
  websiteUrl : Option String
  distance : Rat
  walkingTimeMinutes : Int
deriving DecidableEq, Repr

/-- Format one restaurant card with fallbacks for all fields
(restaurants.tsx lines 63-104).  The walking-distance computation
(calculateDistance, a haversine over floating point trigonometry) is
abstracted as the function argument cd from the two coordinate pairs to a
distance in miles; loc is the geometry location, already checked present. -/
def mkRestaurantCard (cd : Rat → Rat → Rat → Rat → Rat) (userLat userLng : Rat)
    (index : Nat) (place : Place) (loc : PlaceLocation) : RestaurantCard :=
  let photoUrl :=
    match place.photos with
    | [] => "https://placehold.co/400x300?text=Restaurant"
    | ref :: _ => getPhotoUrl ref 400
  let distance := cd userLat userLng loc.lat loc.lng
  { id := place.place_id.getD ("temp-id-" ++ toString index),
    name := place.name.getD "Unknown Restaurant",
    address := place.vicinity.getD "Address unavailable",
    cuisineType := match place.types with | [] => "Restaurant" | t :: _ => t,
    priceLevel := place.price_level.getD 2,
    rating := place.rating.getD 3,
    lat := loc.lat,
    lng := loc.lng,
    photoUrl := photoUrl,
    mapsUrl := place.place_id.map
      (fun pid => "https://www.google.com/maps/place/?q=place_id:" ++ pid),
    websiteUrl := place.website,
    distance := distance,
    walkingTimeMinutes := round (distance / 3 * 60) }

/-- The per-place processing loop of the aggregation loader
(restaurants.tsx lines 63-151), carrying the running index of the map:
a place with missing geometry data is turned into null, and nulls are
filtered out of the final list.  The database upsert side effect of
lines 107-140 does not alter the returned cards and is not modelled. -/
def processPlacesFrom (cd : Rat → Rat → Rat → Rat → Rat) (userLat userLng : Rat)
    (index : Nat) (places : List Place) : List RestaurantCard :=
  match places with
  | [] => []
  | place :: rest =>
      match place.geoLocation with
      | none => processPlacesFrom cd userLat userLng (index + 1) rest
      | some loc =>
          mkRestaurantCard cd userLat userLng index place loc ::
            processPlacesFrom cd userLat userLng (index + 1) rest

/-- The processing of the full search-result list, starting at index 0. -/
def processPlaces (cd : Rat → Rat → Rat → Rat → Rat) (userLat userLng : Rat)
    (places : List Place) : List RestaurantCard :=
  processPlacesFrom cd userLat userLng 0 places

/-- One element of the attendee-count summary produced for the aggregation
loader (restaurants.tsx lines 187-192). -/
structure AttendeeInfo where
  id : String
  attendeeCount : Nat
  userIsAttending : Bool
  dinnerGroupId : Nat
deriving DecidableEq, Repr

/-- getRestaurantsWithAttendeeCount (restaurants.tsx lines 177-197): for
every dinner group, its restaurant id, the number of its attendees, and
the userIsAttending flag, which the source sets to the literal false with
the comment that it is to be replaced with an actual user check. -/
def getRestaurantsWithAttendeeCount (db : DB) : List AttendeeInfo :=
  db.groups.map (fun group =>
    { id := group.restaurantId,
      attendeeCount := (db.attendees.filter (fun a => a.dinnerGroupId == group.id)).length,
      userIsAttending := false,
      dinnerGroupId := group.id })

/-- Restaurant record shape passed to createRestaurant by the place-details
create action (src/unnamed/part_003 lines 133-146).  Name and address are
passed through unchanged from the raw details object. -/
structure RestaurantData where
  name : Option String
  address : Option String
  cuisineType : String
  priceLevel : Nat
  rating : Rat
  lat : Rat
  lng : Rat
  photoUrl : Option String
  mapsUrl : Option String
  websiteUrl : Option String
deriving DecidableEq, Repr

/-- JavaScript-style defaulting with the logical-or operator: an absent or
zero (falsy) value is replaced by the default. -/
def jsOrNat (x : Option Nat) (d : Nat) : Nat :=
  match x with
  | some v => if v = 0 then d else v
  | none => d

/-- JavaScript-style defaulting with the logical-or operator on a rational
field: an absent or zero (falsy) value is replaced by the default. -/
def jsOrRat (x : Option Rat) (d : Rat) : Rat :=
  match x with
  | some v => if v = 0 then d else v
  | none => d

/-- The create branch of the place-details restaurant action
(src/unnamed/part_003 lines 121-149): builds the persisted Restaurant
record from the raw place details.  The source dereferences
placeDetails.geometry.location without a check, so a missing geometry is
modelled as none (the thrown TypeError).  Price level defaults to 1 and
rating to 0 via the logical-or operator. -/
def createRestaurantFromDetails (placeDetails : Place) : Option RestaurantData :=
  match placeDetails.geoLocation with
  | none => none
  | some loc =>
      some
        { name := placeDetails.name,
          address := placeDetails.vicinity,
          cuisineType :=
            match placeDetails.types with
            | [] => "restaurant"
            | t :: _ => if t = "" then "restaurant" else t,
          priceLevel := jsOrNat placeDetails.price_level 1,
          rating := jsOrRat placeDetails.rating 0,
          lat := loc.lat,
          lng := loc.lng,
          photoUrl :=
            match placeDetails.photos with
            | [] => none
            | ref :: _ => some (getPhotoUrl ref 400),
          mapsUrl := placeDetails.url,
          websiteUrl := placeDetails.website }

/-- Body of the response of the external place-search collaborator. -/
structure PlacesResponse where
  status : String
  results : List Place
deriving DecidableEq, Repr

/-- Outcome of the network call to the external place-search collaborator:
a parsed response body, or one of the failure modes (non-OK HTTP response,
network error thrown by fetch, JSON/schema parse error). -/
inductive FetchOutcome where
  | success (response : PlacesResponse)
  | httpError (statusText : String)
  | networkError (message : String)
  | parseError (message : String)
deriving DecidableEq, Repr

/-- Whether the outcome is one of the failure modes. -/
def FetchOutcome.isFailure : FetchOutcome → Bool
  | .success _ => false
  | _ => true

/-- searchRestaurants of the active provider module
(src/unnamed/part_002 lines 43-91): any thrown error, including a non-OK
HTTP response and a bad API status, is caught and degraded to an empty
result list; otherwise the results are filtered by the optional minimum
rating, treating an absent place rating as 0. -/
def searchRestaurantsSimple (minRating : Option Rat) (outcome : FetchOutcome) : List Place :=
  match outcome with
  | .success response =>
      if response.status ≠ "OK" ∧ response.status ≠ "ZERO_RESULTS" then []
      else
        match minRating with
        | some r => response.results.filter (fun p => r ≤ p.rating.getD 0)
        | none => response.results
  | .httpError _ => []
  | .networkError _ => []
  | .parseError _ => []

/-- searchRestaurants of the cached provider module
(src/unnamed/part_001 lines 169-228): a cache hit short-circuits the
network call; on a cache miss, a failed fetch, non-OK response or parse
error is caught, logged and rethrown to the caller. -/
def searchRestaurantsCached (cached : Option (List Place)) (outcome : FetchOutcome) :
    Except String (List Place) :=
  match cached with
  | some cachedResults => .ok cachedResults
  | none =>
      match outcome with
      | .success response => .ok response.results
      | .httpError statusText => .error ("Google Places API error: " ++ statusText)
      | .networkError message => .error message
      | .parseError message => .error message

/-- A sample dinner group for restaurant r1, used to evaluate theorems on
concrete inputs. -/
def sampleGroup : DinnerGroup := { id := 0, restaurantId := "r1", notes := none }

/-- A second sample dinner group, for restaurant r2. -/
def sampleGroup2 : DinnerGroup := { id := 1, restaurantId := "r2", notes := none }

/-- A sample database with two dinner groups and no attendees. -/
def sampleDB : DB := { attendees := [], groups := [sampleGroup, sampleGroup2], nextId := 2 }

/-- A sample database in which user u1 attends the dinner group of
restaurant r1. -/
def attendedDB : DB :=
  { attendees := [{ id := 1, userId := "u1", dinnerGroupId := 0 }],
    groups := [sampleGroup],
    nextId := 2 }

/-- A sample place whose optional price level and rating are absent. -/
def samplePlaceNoOptionals : Place :=
  { place_id := some "p1",
    name := some "Cafe",
    vicinity := some "Main St",
    types := ["restaurant"],
    price_level := none,
    rating := none,
    geometry := some { location := some { lat := 1, lng := 2 } },
    photos := [],
    website := none,
    url := none }

/-- A sample place with no geometry data. -/
def samplePlaceNoGeometry : Place :=
  { place_id := some "p2",
    name := some "Diner",
    vicinity := some "Side St",
    types := ["restaurant"],
    price_level := some 1,
    rating := some 4,
    geometry := none,
    photos := [],
    website := none,
    url := none }

end DinnerApp

section ListHelpers

variable {α : Type _} {β : Type _}

/-- find? returns the head of the filtered list. -/
theorem find?_eq_head?_filter (p : α → Bool) (l : List α) :
    l.find? p = (l.filter p).head? := by
  induction l with
  | nil => rfl
  | cons a t ih =>
      by_cases h : p a
      · rw [List.find?_cons_of_pos _ h, List.filter_cons_of_pos h]
        rfl
      · rw [List.find?_cons_of_neg _ (by simp [h]), List.filter_cons_of_neg (by simp [h]), ih]

/-- When the filtered list has at most one element and find? succeeds, the
filtered list is exactly that element. -/
theorem filter_eq_singleton_of_le_one (p : α → Bool) (l : List α)
    (hlen : (l.filter p).length ≤ 1) {a : α} (hf : l.find? p = some a) :
    l.filter p = [a] := by
  rw [find?_eq_head?_filter] at hf
  rcases hfl : l.filter p with _ | ⟨b, t⟩
  · rw [hfl] at hf; simp at hf
  · rw [hfl] at hf hlen
    simp only [List.head?] at hf
    cases hf
    cases t with
    | nil => rfl
    | cons c t' => simp at hlen

/-- A list whose f-images are pairwise distinct has at most one element
with any given f-image. -/
theorem length_filter_le_one_of_pairwise [DecidableEq β] (f : α → β) (l : List α)
    (hp : l.Pairwise (fun x y => f x ≠ f y)) (b : β) :
    (l.filter (fun x => f x == b)).length ≤ 1 := by
  induction l with
  | nil => simp
  | cons a t ih =>
      rcases List.pairwise_cons.mp hp with ⟨ha, ht⟩
      by_cases h : f a = b
      · have hnone : t.filter (fun x => f x == b) = [] := by
          rw [List.filter_eq_nil_iff]
          intro x hx
          simp only [beq_iff_eq]
          exact fun hxb => ha x hx (h.trans hxb.symm)
        rw [List.filter_cons_of_pos (by simp [h]), hnone]
        simp
      · rw [List.filter_cons_of_neg (by simp [h])]
        exact ih ht

/-- Two filters of the same list commute. -/
theorem filter_comm' (p q : α → Bool) (l : List α) :
    (l.filter q).filter p = (l.filter p).filter q := by
  rw [List.filter_filter, List.filter_filter]
  simp only [Bool.and_comm]

/-- countP splits over the partition of a list by a Boolean predicate. -/
theorem countP_partition (p q : α → Bool) (l : List α) :
    l.countP p = (l.filter q).countP p + (l.filter (fun a => !q a)).countP p := by
  have hperm := List.filter_append_perm q l
  calc l.countP p = (l.filter q ++ l.filter (fun a => !q a)).countP p :=
        (hperm.countP_eq p).symm
    _ = (l.filter q).countP p + (l.filter (fun a => !q a)).countP p :=
        List.countP_append p _ _

/-- In a list with pairwise-distinct f-images, the rows matching the image
of a member are exactly that member. -/
theorem filter_image_eq_singleton [DecidableEq β] (f : α → β) {l : List α} {a : α}
    (hnd : (l.map f).Nodup) (ha : a ∈ l) :
    l.filter (fun x => f x == f a) = [a] := by
  induction l with
  | nil => cases ha
  | cons b t ih =>
      rw [List.map_cons, List.nodup_cons] at hnd
      rcases hnd with ⟨hb, ht⟩
      rcases List.mem_cons.mp ha with rfl | hat
      · have hnone : t.filter (fun x => f x == f a) = [] := by
          rw [List.filter_eq_nil_iff]
          intro x hx
          simp only [beq_iff_eq]
          intro hxa
          exact hb (hxa ▸ List.mem_map_of_mem f hx)
        rw [List.filter_cons_of_pos (by simp), hnone]
      · have hba : f b ≠ f a := by
          intro hba
          exact hb (hba ▸ List.mem_map_of_mem f hat)
        rw [List.filter_cons_of_neg (by simp [hba])]
        exact ih ht hat

/-- find? by a member's f-image returns that member when f-images are
pairwise distinct. -/
theorem find?_image_of_nodup [DecidableEq β] (f : α → β) {l : List α} {a : α}
    (hnd : (l.map f).Nodup) (ha : a ∈ l) :
    l.find? (fun x => f x == f a) = some a := by
  rw [find?_eq_head?_filter, filter_image_eq_singleton f hnd ha]
  rfl

/-- Length of filterMap counts the elements where f succeeds. -/
theorem length_filterMap_eq_countP (f : α → Option β) (l : List α) :
    (l.filterMap f).length = l.countP (fun a => (f a).isSome) := by
  induction l with
  | nil => rfl
  | cons a t ih =>
      rcases hfa : f a with _ | b
      · simp [List.filterMap_cons, hfa, ih, List.countP_cons]
      · simp [List.filterMap_cons, hfa, ih, List.countP_cons]

end ListHelpers

namespace DinnerApp

theorem atMostOne_filter_le_one {db : DB} (h : AtMostOne db) (u : String) :
    (db.attendees.filter (fun a => a.userId == u)).length ≤ 1 :=
  length_filter_le_one_of_pairwise Attendee.userId db.attendees h u

theorem removeUser_groups (u : String) (db : DB) :
    (removeUserAttendee u db).groups = db.groups := by
  unfold removeUserAttendee
  cases db.attendees.find? (fun a => a.userId == u) <;> rfl

theorem removeUser_nextId (u : String) (db : DB) :
    (removeUserAttendee u db).nextId = db.nextId := by
  unfold removeUserAttendee
  cases db.attendees.find? (fun a => a.userId == u) <;> rfl

theorem removeUser_sublist (u : String) (db : DB) :
    (removeUserAttendee u db).attendees.Sublist db.attendees := by
  unfold removeUserAttendee
  cases db.attendees.find? (fun a => a.userId == u) with
  | none => exact List.Sublist.refl _
  | some ex => exact List.filter_sublist _

theorem removeUser_filter_user {db : DB} (u : String) (h : AtMostOne db) :
    (removeUserAttendee u db).attendees.filter (fun a => a.userId == u) = [] := by
  unfold removeUserAttendee
  cases hfind : db.attendees.find? (fun a => a.userId == u) with
  | none =>
      simp only
      rw [List.filter_eq_nil_iff]
      exact List.find?_eq_none.mp hfind
  | some ex =>
      simp only
      rw [filter_comm', filter_eq_singleton_of_le_one _ _ (atMostOne_filter_le_one h u) hfind]
      simp

theorem removeUser_atMostOne {db : DB} (u : String) (h : AtMostOne db) :
    AtMostOne (removeUserAttendee u db) :=
  h.sublist (removeUser_sublist u db)

theorem join_fst (u : String) (gid : Nat) (db : DB) :
    (joinDinnerGroup u gid db).1 =
      { id := (removeUserAttendee u db).nextId, userId := u, dinnerGroupId := gid } := rfl

theorem join_attendees (u : String) (gid : Nat) (db : DB) :
    (joinDinnerGroup u gid db).2.attendees =
      (removeUserAttendee u db).attendees ++ [(joinDinnerGroup u gid db).1] := rfl

theorem join_groups (u : String) (gid : Nat) (db : DB) :
    (joinDinnerGroup u gid db).2.groups = db.groups := removeUser_groups u db

theorem join_filter_user {db : DB} (u : String) (gid : Nat) (h : AtMostOne db) :
    (joinDinnerGroup u gid db).2.attendees.filter (fun a => a.userId == u) =
      [(joinDinnerGroup u gid db).1] := by
  rw [join_attendees, List.filter_append, removeUser_filter_user u h]
  simp [join_fst]

theorem join_atMostOne {db : DB} (u : String) (gid : Nat) (h : AtMostOne db) :
    AtMostOne (joinDinnerGroup u gid db).2 := by
  have hrem := removeUser_atMostOne u h
  have hnouser := removeUser_filter_user u h
  unfold AtMostOne
  rw [join_attendees]
  apply List.pairwise_append.mpr
  refine ⟨hrem, by simp, ?_⟩
  intro a ha b hb
  rcases List.mem_singleton.mp hb with rfl
  rw [join_fst]
  intro hcontra
  have hmem : a ∈ (removeUserAttendee u db).attendees.filter (fun x => x.userId == u) := by
    rw [List.mem_filter]
    exact ⟨ha, by simp [hcontra]⟩
  rw [hnouser] at hmem
  cases hmem

theorem upsert_atMostOne {db : DB} (u : String) (gid : Nat) (h : AtMostOne db) :
    AtMostOne (upsertUserAttendee u gid db) := by
  unfold upsertUserAttendee
  cases hfind : db.attendees.find? (fun a => a.userId == u) with
  | some ex =>
      simp only
      unfold AtMostOne
      simp only
      apply h.map
      intro a b hab
      by_cases h1 : (a.id == ex.id) <;> by_cases h2 : (b.id == ex.id) <;>
        simp [h1, h2] <;> exact hab
  | none =>
      simp only
      unfold AtMostOne
      simp only
      apply List.pairwise_append.mpr
      refine ⟨h, by simp, ?_⟩
      intro a ha b hb
      rcases List.mem_singleton.mp hb with rfl
      intro hcontra
      have := List.find?_eq_none.mp hfind a ha
      simp only [beq_iff_eq] at this
      exact this hcontra

theorem leave_snd_eq_remove (u : String) (db : DB) :
    (leaveDinnerGroup u db).2 = removeUserAttendee u db := by
  unfold leaveDinnerGroup removeUserAttendee
  cases db.attendees.find? (fun a => a.userId == u) <;> rfl

theorem dashLeave_atMostOne {db : DB} (u : String) (h : AtMostOne db) :
    AtMostOne (dashboardLeaveDinner u db) :=
  h.sublist (List.filter_sublist _)

theorem lookupOrCreateGroup_attendees (r : String) (db : DB) :
    (lookupOrCreateGroup r db).2.attendees = db.attendees := by
  unfold lookupOrCreateGroup
  cases db.groups.find? (fun g => g.restaurantId == r) <;> rfl

theorem dashJoin_atMostOne {db : DB} (u r : String) (h : AtMostOne db) :
    AtMostOne (dashboardJoinDinner u r db) := by
  apply upsert_atMostOne
  unfold AtMostOne
  rw [lookupOrCreateGroup_attendees]
  exact h

theorem step_atMostOne {db db' : DB} (h : AtMostOne db) (hs : Step db db') :
    AtMostOne db' := by
  cases hs with
  | join u gid db => exact join_atMostOne u gid h
  | dashJoin u r db => exact dashJoin_atMostOne u r h
  | leave u db => rw [leave_snd_eq_remove]; exact removeUser_atMostOne u h
  | dashLeave u db => exact dashLeave_atMostOne u h

theorem reachable_atMostOne {db : DB} (h : Reachable db) : AtMostOne db := by
  induction h with
  | init => exact List.Pairwise.nil
  | step _ hs ih => exact step_atMostOne ih hs

end DinnerApp

theorem eq_singleton_of_mem_of_length_le_one {α : Type _} {l : List α} {a : α}
    (ha : a ∈ l) (hl : l.length ≤ 1) : l = [a] := by
  cases l with
  | nil => cases ha
  | cons b t =>
      cases t with
      | nil => rcases List.mem_singleton.mp ha with rfl; rfl
      | cons c t' => simp at hl

namespace DinnerApp

theorem join_find_user {db : DB} (u : String) (gid : Nat) (h : AtMostOne db) :
    (joinDinnerGroup u gid db).2.attendees.find? (fun a => a.userId == u) =
      some (joinDinnerGroup u gid db).1 := by
  rw [find?_eq_head?_filter, join_filter_user u gid h]
  rfl

theorem getCurrentDinnerGroup_eq_of_find {u : String} {db : DB} {a : Attendee}
    (hf : db.attendees.find? (fun x => x.userId == u) = some a) :
    getCurrentDinnerGroup u db =
      some (a, db.groups.find? (fun g => g.id == a.dinnerGroupId)) := by
  unfold getCurrentDinnerGroup
  rw [hf]

/-- C1: for every user, in every state reachable by the membership
operations there is at most one Attendee row referencing that user, and
every membership operation (joinDinnerGroup, the dashboard join action,
leaveDinnerGroup, the dashboard leave action) preserves this invariant. -/
theorem membership_at_most_one_invariant :
    (∀ db : DB, Reachable db → AtMostOne db) ∧
    (∀ db db' : DB, AtMostOne db → Step db db' → AtMostOne db') :=
  ⟨fun _ h => reachable_atMostOne h, fun _ _ h hs => step_atMostOne h hs⟩

theorem membership_at_most_one_invariant_witness :
    AtMostOne emptyDB ∧ AtMostOne (joinDinnerGroup "u1" 0 emptyDB).2 :=
  ⟨membership_at_most_one_invariant.1 emptyDB Reachable.init,
   membership_at_most_one_invariant.2 emptyDB (joinDinnerGroup "u1" 0 emptyDB).2
     (by decide) (Step.join "u1" 0 emptyDB)⟩

/-- C2: for every user u and every restaurant R whose dinner group g
exists, joining g and then immediately reading the current dinner group
returns the newly created Attendee row together with the group g, whose
restaurant id equals R. -/
theorem join_then_current_group (u R : String) (db : DB) (g : DinnerGroup)
    (h : AtMostOne db) (hg : g ∈ db.groups) (hR : g.restaurantId = R)
    (hnd : (db.groups.map DinnerGroup.id).Nodup) :
    getCurrentDinnerGroup u (joinDinnerGroup u g.id db).2 =
      some ((joinDinnerGroup u g.id db).1, some g) ∧ g.restaurantId = R := by
  refine ⟨?_, hR⟩
  rw [getCurrentDinnerGroup_eq_of_find (join_find_user u g.id h), join_groups]
  have hgid : (joinDinnerGroup u g.id db).1.dinnerGroupId = g.id := rfl
  rw [hgid, find?_image_of_nodup DinnerGroup.id hnd hg]

theorem join_then_current_group_witness :
    getCurrentDinnerGroup "u1" (joinDinnerGroup "u1" sampleGroup.id sampleDB).2 =
      some ((joinDinnerGroup "u1" sampleGroup.id sampleDB).1, some sampleGroup) ∧
    sampleGroup.restaurantId = "r1" :=
  join_then_current_group "u1" "r1" sampleDB sampleGroup (by decide) (by decide) rfl (by decide)

end DinnerApp

namespace DinnerApp

/-- C4: leaveDinnerGroup deletes the user's Attendee row if one exists;
the route action reports true exactly when a row existed and was removed;
with no membership it is a no-op reporting false rather than an error; and
calling leave twice in a row yields false on the second call. -/
theorem leave_reports_removed (u : String) (db : DB) (h : AtMostOne db) :
    ((attendeeLeaveAction u db).1 = db.attendees.any (fun a => a.userId == u))
    ∧ ((attendeeLeaveAction u db).2.attendees.filter (fun a => a.userId == u) = [])
    ∧ (db.attendees.any (fun a => a.userId == u) = false → (attendeeLeaveAction u db).2 = db)
    ∧ ((attendeeLeaveAction u (attendeeLeaveAction u db).2).1 = false) := by
  have hsnd : (attendeeLeaveAction u db).2 = removeUserAttendee u db :=
    leave_snd_eq_remove u db
  have hfilter : (attendeeLeaveAction u db).2.attendees.filter (fun a => a.userId == u) = [] := by
    rw [hsnd]
    exact removeUser_filter_user u h
  refine ⟨?_, hfilter, ?_, ?_⟩
  · show (leaveDinnerGroup u db).1.isSome = db.attendees.any (fun a => a.userId == u)
    cases hfind : db.attendees.find? (fun a => a.userId == u) with
    | none =>
        have hleave : leaveDinnerGroup u db = (none, db) := by
          unfold leaveDinnerGroup
          rw [hfind]
        rw [hleave]
        have hany : db.attendees.any (fun a => a.userId == u) = false := by
          rw [List.any_eq_false]
          exact List.find?_eq_none.mp hfind
        rw [hany]
        rfl
    | some ex =>
        have hleave : (leaveDinnerGroup u db).1 = some ex := by
          unfold leaveDinnerGroup
          rw [hfind]
        rw [hleave]
        have hany : db.attendees.any (fun a => a.userId == u) = true := by
          refine List.any_eq_true.mpr ⟨ex, List.mem_of_find?_eq_some hfind, ?_⟩
          have hpa := List.find?_some hfind
          exact hpa
        rw [hany]
        rfl
  · intro hany
    cases hfind : db.attendees.find? (fun a => a.userId == u) with
    | none =>
        show (leaveDinnerGroup u db).2 = db
        unfold leaveDinnerGroup
        rw [hfind]
    | some ex =>
        exfalso
        have : db.attendees.any (fun a => a.userId == u) = true := by
          refine List.any_eq_true.mpr ⟨ex, List.mem_of_find?_eq_some hfind, ?_⟩
          have hpa := List.find?_some hfind
          exact hpa
        rw [hany] at this
        cases this
  · have hfind2 :
        (attendeeLeaveAction u db).2.attendees.find? (fun a => a.userId == u) = none := by
      rw [find?_eq_head?_filter, hfilter]
      rfl
    show (leaveDinnerGroup u (attendeeLeaveAction u db).2).1.isSome = false
    unfold leaveDinnerGroup
    rw [hfind2]
    rfl

theorem leave_reports_removed_witness :
    ((attendeeLeaveAction "u1" attendedDB).1
        = attendedDB.attendees.any (fun a => a.userId == "u1"))
    ∧ ((attendeeLeaveAction "u1" attendedDB).2.attendees.filter
        (fun a => a.userId == "u1") = [])
    ∧ (attendedDB.attendees.any (fun a => a.userId == "u1") = false →
        (attendeeLeaveAction "u1" attendedDB).2 = attendedDB)
    ∧ ((attendeeLeaveAction "u1" (attendeeLeaveAction "u1" attendedDB).2).1 = false) :=
  leave_reports_removed "u1" attendedDB (by decide)

/-- C10: join is idempotent on membership state: when the user already has
an Attendee row bound to the target dinner group, running joinDinnerGroup
for that group again leaves the user with exactly one Attendee row, still
bound to that group, and leaves the group's attendee count unchanged. -/
theorem join_idempotent (u : String) (gid : Nat) (db : DB) (a0 : Attendee)
    (h : AtMostOne db) (hnd : (db.attendees.map Attendee.id).Nodup)
    (ha : a0 ∈ db.attendees) (hu : a0.userId = u) (hg : a0.dinnerGroupId = gid) :
    (((joinDinnerGroup u gid db).2.attendees.filter (fun a => a.userId == u)).length = 1)
    ∧ (∀ a ∈ (joinDinnerGroup u gid db).2.attendees, a.userId = u → a.dinnerGroupId = gid)
    ∧ (getAttendeesCount gid (joinDinnerGroup u gid db).2 = getAttendeesCount gid db) := by
  have hfilteru : (joinDinnerGroup u gid db).2.attendees.filter (fun a => a.userId == u) =
      [(joinDinnerGroup u gid db).1] := join_filter_user u gid h
  refine ⟨by rw [hfilteru]; rfl, ?_, ?_⟩
  · intro a hmem hau
    have : a ∈ (joinDinnerGroup u gid db).2.attendees.filter (fun x => x.userId == u) := by
      rw [List.mem_filter]
      exact ⟨hmem, by simp [hau]⟩
    rw [hfilteru] at this
    rcases List.mem_singleton.mp this with rfl
    rfl
  · have hmemf : a0 ∈ db.attendees.filter (fun a => a.userId == u) :=
      List.mem_filter.mpr ⟨ha, by simp [hu]⟩
    have hfu : db.attendees.filter (fun a => a.userId == u) = [a0] :=
      eq_singleton_of_mem_of_length_le_one hmemf (atMostOne_filter_le_one h u)
    have hfind : db.attendees.find? (fun a => a.userId == u) = some a0 := by
      rw [find?_eq_head?_filter, hfu]
      rfl
    have hrem : (removeUserAttendee u db).attendees =
        db.attendees.filter (fun a => !(a.id == a0.id)) := by
      unfold removeUserAttendee
      rw [hfind]
    have hsingle : db.attendees.filter (fun x => x.id == a0.id) = [a0] :=
      filter_image_eq_singleton Attendee.id hnd ha
    have hpart := countP_partition (fun a => a.dinnerGroupId == gid)
      (fun a => a.id == a0.id) db.attendees
    rw [hsingle] at hpart
    have hone : ([a0].countP fun a => a.dinnerGroupId == gid) = 1 := by
      simp [List.countP_cons, hg]
    rw [hone] at hpart
    unfold getAttendeesCount
    rw [join_attendees, List.filter_append, List.length_append, hrem]
    simp only [← List.countP_eq_length_filter]
    rw [hpart]
    have hnewc : List.countP (fun a => a.dinnerGroupId == gid)
        [(joinDinnerGroup u gid db).1] = 1 := by
      simp [join_fst, List.countP_cons]
    rw [hnewc]
    omega

theorem join_idempotent_witness :
    (((joinDinnerGroup "u1" 0 attendedDB).2.attendees.filter
        (fun a => a.userId == "u1")).length = 1)
    ∧ (∀ a ∈ (joinDinnerGroup "u1" 0 attendedDB).2.attendees,
        a.userId = "u1" → a.dinnerGroupId = 0)
    ∧ (getAttendeesCount 0 (joinDinnerGroup "u1" 0 attendedDB).2
        = getAttendeesCount 0 attendedDB) :=
  join_idempotent "u1" 0 attendedDB { id := 1, userId := "u1", dinnerGroupId := 0 }
    (by decide) (by decide) (by decide) rfl rfl

end DinnerApp

namespace DinnerApp

theorem upsert_groups (u : String) (gid : Nat) (db : DB) :
    (upsertUserAttendee u gid db).groups = db.groups := by
  unfold upsertUserAttendee
  cases db.attendees.find? (fun a => a.userId == u) <;> rfl

theorem upsert_mem_user (u : String) (gid : Nat) (db : DB) :
    ∃ a ∈ (upsertUserAttendee u gid db).attendees, a.userId = u ∧ a.dinnerGroupId = gid := by
  unfold upsertUserAttendee
  cases hfind : db.attendees.find? (fun a => a.userId == u) with
  | some ex =>
      simp only
      refine ⟨{ ex with dinnerGroupId := gid }, ?_, ?_, rfl⟩
      · have hexmem := List.mem_of_find?_eq_some hfind
        have hmap := List.mem_map_of_mem
          (fun a => if a.id == ex.id then { a with dinnerGroupId := gid } else a) hexmem
        simpa using hmap
      · have hpa := List.find?_some hfind
        simpa using hpa
  | none =>
      simp only
      exact ⟨⟨db.nextId, u, gid⟩, List.mem_append_right _ (List.mem_singleton.mpr rfl), rfl, rfl⟩

/-- C3: after the user joins the group of restaurant R1 and then the group
of a distinct restaurant R2, the attendee count of R1 has no contribution
from the user (it equals the count over non-user rows), while the attendee
count of R2 includes the user (a row of the user is bound to R2's group and
the count is at least one). -/
theorem join_switch_groups (u R1 R2 : String) (db : DB) (g1 g2 : DinnerGroup)
    (h : AtMostOne db) (hg1 : g1 ∈ db.groups) (hg2 : g2 ∈ db.groups)
    (hr1 : g1.restaurantId = R1) (hr2 : g2.restaurantId = R2) (hne : R1 ≠ R2)
    (hnd : (db.groups.map DinnerGroup.id).Nodup) :
    (getAttendeesCount g1.id (joinDinnerGroup u g2.id (joinDinnerGroup u g1.id db).2).2 =
      (((joinDinnerGroup u g2.id (joinDinnerGroup u g1.id db).2).2.attendees.filter
          (fun a => !(a.userId == u))).filter (fun a => a.dinnerGroupId == g1.id)).length)
    ∧ (1 ≤ getAttendeesCount g2.id (joinDinnerGroup u g2.id (joinDinnerGroup u g1.id db).2).2)
    ∧ (∃ a ∈ (joinDinnerGroup u g2.id (joinDinnerGroup u g1.id db).2).2.attendees,
        a.userId = u ∧ a.dinnerGroupId = g2.id) := by
  have hid : g1.id ≠ g2.id := by
    intro hid
    apply hne
    rw [← hr1, ← hr2, List.inj_on_of_nodup_map hnd hg1 hg2 hid]
  have h1 : AtMostOne (joinDinnerGroup u g1.id db).2 := join_atMostOne u g1.id h
  have hfu2 : (joinDinnerGroup u g2.id (joinDinnerGroup u g1.id db).2).2.attendees.filter
      (fun a => a.userId == u) =
      [(joinDinnerGroup u g2.id (joinDinnerGroup u g1.id db).2).1] :=
    join_filter_user u g2.id h1
  have hmem : (joinDinnerGroup u g2.id (joinDinnerGroup u g1.id db).2).1 ∈
      (joinDinnerGroup u g2.id (joinDinnerGroup u g1.id db).2).2.attendees := by
    rw [join_attendees]
    exact List.mem_append_right _ (List.mem_singleton.mpr rfl)
  refine ⟨?_, ?_, ⟨(joinDinnerGroup u g2.id (joinDinnerGroup u g1.id db).2).1, hmem, rfl, rfl⟩⟩
  · unfold getAttendeesCount
    simp only [← List.countP_eq_length_filter]
    rw [countP_partition (fun a => a.dinnerGroupId == g1.id) (fun a => a.userId == u)
      (joinDinnerGroup u g2.id (joinDinnerGroup u g1.id db).2).2.attendees, hfu2]
    have hzero : List.countP (fun a => a.dinnerGroupId == g1.id)
        [(joinDinnerGroup u g2.id (joinDinnerGroup u g1.id db).2).1] = 0 := by
      simp [join_fst, List.countP_cons, Ne.symm hid]
    rw [hzero]
    omega
  · unfold getAttendeesCount
    have hmemf : (joinDinnerGroup u g2.id (joinDinnerGroup u g1.id db).2).1 ∈
        (joinDinnerGroup u g2.id (joinDinnerGroup u g1.id db).2).2.attendees.filter
          (fun a => a.dinnerGroupId == g2.id) :=
      List.mem_filter.mpr ⟨hmem, by simp [join_fst]⟩
    exact List.length_pos.mpr (List.ne_nil_of_mem hmemf)

theorem join_switch_groups_witness :
    (getAttendeesCount sampleGroup.id
        (joinDinnerGroup "u1" sampleGroup2.id
          (joinDinnerGroup "u1" sampleGroup.id sampleDB).2).2 =
      (((joinDinnerGroup "u1" sampleGroup2.id
            (joinDinnerGroup "u1" sampleGroup.id sampleDB).2).2.attendees.filter
          (fun a => !(a.userId == "u1"))).filter
          (fun a => a.dinnerGroupId == sampleGroup.id)).length)
    ∧ (1 ≤ getAttendeesCount sampleGroup2.id
        (joinDinnerGroup "u1" sampleGroup2.id
          (joinDinnerGroup "u1" sampleGroup.id sampleDB).2).2)
    ∧ (∃ a ∈ (joinDinnerGroup "u1" sampleGroup2.id
          (joinDinnerGroup "u1" sampleGroup.id sampleDB).2).2.attendees,
        a.userId = "u1" ∧ a.dinnerGroupId = sampleGroup2.id) :=
  join_switch_groups "u1" "r1" "r2" sampleDB sampleGroup sampleGroup2
    (by decide) (by decide) (by decide) rfl rfl (by decide) (by decide)

/-- C5: the first dashboard join targeting a restaurant with no dinner
group creates exactly one group for that restaurant; any subsequent join
targeting a restaurant that has exactly one group reuses that group (the
group table is unchanged and the joining user's Attendee row is bound to
that group's id). -/
theorem lazy_group_per_restaurant (u R : String) (db : DB) :
    ((db.groups.filter (fun g => g.restaurantId == R)).length = 0 →
      ((dashboardJoinDinner u R db).groups.filter (fun g => g.restaurantId == R)).length = 1)
    ∧ (∀ g : DinnerGroup, db.groups.filter (fun g' => g'.restaurantId == R) = [g] →
        (dashboardJoinDinner u R db).groups = db.groups
        ∧ ∃ a ∈ (dashboardJoinDinner u R db).attendees,
            a.userId = u ∧ a.dinnerGroupId = g.id) := by
  constructor
  · intro hlen0
    have hnil : db.groups.filter (fun g => g.restaurantId == R) = [] :=
      List.length_eq_zero.mp hlen0
    have hfind : db.groups.find? (fun g => g.restaurantId == R) = none := by
      rw [find?_eq_head?_filter, hnil]
      rfl
    have hlk : lookupOrCreateGroup R db =
        (db.nextId,
         { db with
             groups := db.groups ++ [{ id := db.nextId, restaurantId := R, notes := some "" }],
             nextId := db.nextId + 1 }) := by
      unfold lookupOrCreateGroup
      rw [hfind]
    show ((upsertUserAttendee u (lookupOrCreateGroup R db).1
        (lookupOrCreateGroup R db).2).groups.filter (fun g => g.restaurantId == R)).length = 1
    rw [upsert_groups, hlk, List.filter_append, hnil]
    simp
  · intro g hfil
    have hfind : db.groups.find? (fun g' => g'.restaurantId == R) = some g := by
      rw [find?_eq_head?_filter, hfil]
      rfl
    have hlk : lookupOrCreateGroup R db = (g.id, db) := by
      unfold lookupOrCreateGroup
      rw [hfind]
    constructor
    · show (upsertUserAttendee u (lookupOrCreateGroup R db).1
          (lookupOrCreateGroup R db).2).groups = db.groups
      rw [upsert_groups, hlk]
    · show ∃ a ∈ (upsertUserAttendee u (lookupOrCreateGroup R db).1
          (lookupOrCreateGroup R db).2).attendees, a.userId = u ∧ a.dinnerGroupId = g.id
      rw [hlk]
      exact upsert_mem_user u g.id db

theorem lazy_group_per_restaurant_witness :
    (((dashboardJoinDinner "u1" "r3" sampleDB).groups.filter
        (fun g => g.restaurantId == "r3")).length = 1)
    ∧ ((dashboardJoinDinner "u1" "r1" sampleDB).groups = sampleDB.groups
        ∧ ∃ a ∈ (dashboardJoinDinner "u1" "r1" sampleDB).attendees,
            a.userId = "u1" ∧ a.dinnerGroupId = sampleGroup.id) :=
  ⟨(lazy_group_per_restaurant "u1" "r3" sampleDB).1 (by decide),
   (lazy_group_per_restaurant "u1" "r1" sampleDB).2 sampleGroup (by decide)⟩

end DinnerApp

namespace DinnerApp

/-- C6 (evaluation of the code at the failing input): in a state where user
u1 attends the dinner group of restaurant r1, the aggregation summary
reports the correct attendee count but still reports userIsAttending as
false for that restaurant; the source hard-codes the flag to the literal
false with a comment that it is to be replaced with an actual user check. -/
theorem attendee_flag_hardcoded_false :
    (∃ a ∈ attendedDB.attendees, a.userId = "u1" ∧ a.dinnerGroupId = sampleGroup.id)
    ∧ getRestaurantsWithAttendeeCount attendedDB =
        [{ id := "r1", attendeeCount := 1, userIsAttending := false, dinnerGroupId := 0 }] := by
  exact ⟨by decide, rfl⟩

/-- C7 counterexample: the place-details create path persists a Restaurant
record whose price level defaults to 1 (budget) and whose rating defaults
to 0 when the optional fields are absent, not the mid-tier price level 2
and neutral rating 3 that the aggregation view uses. -/
theorem mid_tier_default_counterexample :
    ((createRestaurantFromDetails samplePlaceNoOptionals).map (fun r => r.priceLevel) = some 1)
    ∧ ((createRestaurantFromDetails samplePlaceNoOptionals).map (fun r => r.priceLevel)
        ≠ some 2)
    ∧ ((createRestaurantFromDetails samplePlaceNoOptionals).map (fun r => r.rating) = some 0)
    ∧ ((createRestaurantFromDetails samplePlaceNoOptionals).map (fun r => r.rating) ≠ some 3) := by
  refine ⟨rfl, by decide, rfl, by decide⟩

/-- C7 amended: the aggregation view substitutes the mid-tier price level 2
and the neutral rating 3 for absent optional fields, and always produces a
definite (non-null) value; the place-details create path also never
propagates null but substitutes price level 1 and rating 0 instead. -/
theorem optional_field_defaults (p : Place) (loc : PlaceLocation)
    (cd : Rat → Rat → Rat → Rat → Rat) (userLat userLng : Rat) (index : Nat)
    (hloc : p.geoLocation = some loc) :
    (p.price_level = none → (mkRestaurantCard cd userLat userLng index p loc).priceLevel = 2)
    ∧ (p.rating = none → (mkRestaurantCard cd userLat userLng index p loc).rating = 3)
    ∧ (p.price_level = none →
        ∃ r, createRestaurantFromDetails p = some r ∧ r.priceLevel = 1)
    ∧ (p.rating = none → ∃ r, createRestaurantFromDetails p = some r ∧ r.rating = 0) := by
  have hc : ∃ r, createRestaurantFromDetails p = some r ∧
      r.priceLevel = jsOrNat p.price_level 1 ∧ r.rating = jsOrRat p.rating 0 := by
    unfold createRestaurantFromDetails
    rw [hloc]
    exact ⟨_, rfl, rfl, rfl⟩
  obtain ⟨r, hr, hrp, hrr⟩ := hc
  refine ⟨?_, ?_, ?_, ?_⟩
  · intro hp
    simp [mkRestaurantCard, hp]
  · intro hrat
    simp [mkRestaurantCard, hrat]
  · intro hp
    refine ⟨r, hr, ?_⟩
    rw [hrp, hp]
    rfl
  · intro hrat
    refine ⟨r, hr, ?_⟩
    rw [hrr, hrat]
    rfl

theorem optional_field_defaults_witness :
    ((mkRestaurantCard (fun _ _ _ _ => 0) 0 0 0 samplePlaceNoOptionals
        { lat := 1, lng := 2 }).priceLevel = 2)
    ∧ ((mkRestaurantCard (fun _ _ _ _ => 0) 0 0 0 samplePlaceNoOptionals
        { lat := 1, lng := 2 }).rating = 3)
    ∧ (∃ r, createRestaurantFromDetails samplePlaceNoOptionals = some r ∧ r.priceLevel = 1)
    ∧ (∃ r, createRestaurantFromDetails samplePlaceNoOptionals = some r ∧ r.rating = 0) := by
  have h := optional_field_defaults samplePlaceNoOptionals { lat := 1, lng := 2 }
    (fun _ _ _ _ => 0) 0 0 0 rfl
  exact ⟨h.1 rfl, h.2.1 rfl, h.2.2.1 rfl, h.2.2.2 rfl⟩

theorem processPlacesFrom_length (cd : Rat → Rat → Rat → Rat → Rat)
    (userLat userLng : Rat) (i : Nat) (ps : List Place) :
    (processPlacesFrom cd userLat userLng i ps).length =
      (ps.filter (fun p => p.geoLocation.isSome)).length := by
  induction ps generalizing i with
  | nil => rfl
  | cons p rest ih =>
      unfold processPlacesFrom
      cases hg : p.geoLocation with
      | none =>
          rw [ih (i + 1), List.filter_cons_of_neg (by simp [hg])]
      | some loc =>
          rw [List.length_cons, ih (i + 1), List.filter_cons_of_pos (by simp [hg]),
            List.length_cons]

theorem processPlacesFrom_mem (cd : Rat → Rat → Rat → Rat → Rat)
    (userLat userLng : Rat) (p : Place) (loc : PlaceLocation)
    (hloc : p.geoLocation = some loc) (i : Nat) (ps : List Place) :
    p ∈ ps →
      ∃ index, mkRestaurantCard cd userLat userLng index p loc ∈
        processPlacesFrom cd userLat userLng i ps := by
  induction ps generalizing i with
  | nil => intro hp; cases hp
  | cons q rest ih =>
      intro hp
      unfold processPlacesFrom
      rcases List.mem_cons.mp hp with rfl | hmem
      · rw [hloc]
        exact ⟨i, List.mem_cons_self _ _⟩
      · cases hg : q.geoLocation with
        | none => exact ih (i + 1) hmem
        | some loc' =>
            obtain ⟨j, hj⟩ := ih (i + 1) hmem
            exact ⟨j, List.mem_cons_of_mem _ hj⟩

/-- C8: in the aggregation loader, every search result lacking geographic
data is excluded from the returned card list (the number of cards equals
the number of entries with geographic data) and every entry with
geographic data is retained as a card, with no error raised (the
processing is total). -/
theorem geometry_filter (cd : Rat → Rat → Rat → Rat → Rat) (userLat userLng : Rat)
    (places : List Place) :
    ((processPlaces cd userLat userLng places).length =
      (places.filter (fun p => p.geoLocation.isSome)).length)
    ∧ (∀ p ∈ places, ∀ loc : PlaceLocation, p.geoLocation = some loc →
        ∃ index, mkRestaurantCard cd userLat userLng index p loc ∈
          processPlaces cd userLat userLng places) :=
  ⟨processPlacesFrom_length cd userLat userLng 0 places,
   fun p hp loc hloc => processPlacesFrom_mem cd userLat userLng p loc hloc 0 places hp⟩

theorem geometry_filter_witness :
    ((processPlaces (fun _ _ _ _ => 0) 0 0
        [samplePlaceNoOptionals, samplePlaceNoGeometry]).length =
      ([samplePlaceNoOptionals, samplePlaceNoGeometry].filter
        (fun p => p.geoLocation.isSome)).length)
    ∧ (∃ index, mkRestaurantCard (fun _ _ _ _ => 0) 0 0 index samplePlaceNoOptionals
        { lat := 1, lng := 2 } ∈
        processPlaces (fun _ _ _ _ => 0) 0 0 [samplePlaceNoOptionals, samplePlaceNoGeometry]) :=
  ⟨(geometry_filter (fun _ _ _ _ => 0) 0 0 [samplePlaceNoOptionals, samplePlaceNoGeometry]).1,
   (geometry_filter (fun _ _ _ _ => 0) 0 0 [samplePlaceNoOptionals, samplePlaceNoGeometry]).2
     samplePlaceNoOptionals (List.mem_cons_self _ _) { lat := 1, lng := 2 } rfl⟩

/-- C9 counterexample: in the cached provider module, a failed network call
on a cache miss is rethrown to the caller as a hard error, not degraded to
an empty result list. -/
theorem search_failure_counterexample :
    (searchRestaurantsCached none (FetchOutcome.networkError "network failure") =
      Except.error "network failure")
    ∧ (searchRestaurantsCached none (FetchOutcome.networkError "network failure") ≠
        Except.ok []) :=
  ⟨rfl, fun h => Except.noConfusion h⟩

/-- C9 amended: the simple provider module used by the aggregation view
degrades every failure of the external call (non-OK HTTP response, network
error, parse error) and every non-OK API status to an empty result list,
while the cached provider module propagates such failures to its caller as
errors. -/
theorem search_failure_degrades (minRating : Option Rat) (outcome : FetchOutcome)
    (hfail : outcome.isFailure = true) :
    (searchRestaurantsSimple minRating outcome = [])
    ∧ (∃ e, searchRestaurantsCached none outcome = Except.error e)
    ∧ (∀ response : PlacesResponse, response.status ≠ "OK" →
        response.status ≠ "ZERO_RESULTS" →
        searchRestaurantsSimple minRating (FetchOutcome.success response) = []) := by
  have hstatus : ∀ response : PlacesResponse, response.status ≠ "OK" →
      response.status ≠ "ZERO_RESULTS" →
      searchRestaurantsSimple minRating (FetchOutcome.success response) = [] := by
    intro response h1 h2
    have hred : searchRestaurantsSimple minRating (FetchOutcome.success response) =
        if response.status ≠ "OK" ∧ response.status ≠ "ZERO_RESULTS" then []
        else
          match minRating with
          | some r => response.results.filter (fun p => r ≤ p.rating.getD 0)
          | none => response.results := rfl
    rw [hred, if_pos ⟨h1, h2⟩]
  cases outcome with
  | success response => exact Bool.noConfusion hfail
  | httpError statusText => exact ⟨rfl, ⟨_, rfl⟩, hstatus⟩
  | networkError message => exact ⟨rfl, ⟨message, rfl⟩, hstatus⟩
  | parseError message => exact ⟨rfl, ⟨message, rfl⟩, hstatus⟩

theorem search_failure_degrades_witness :
    (searchRestaurantsSimple none (FetchOutcome.httpError "Bad Gateway") = [])
    ∧ (∃ e, searchRestaurantsCached none (FetchOutcome.httpError "Bad Gateway") =
        Except.error e)
    ∧ (searchRestaurantsSimple none
        (FetchOutcome.success { status := "REQUEST_DENIED", results := [] }) = []) := by
  have h := search_failure_degrades none (FetchOutcome.httpError "Bad Gateway") rfl
  exact ⟨h.1, h.2.1, h.2.2 { status := "REQUEST_DENIED", results := [] }
    (by decide) (by decide)⟩

end DinnerApp
